import Mathlib

/-!
Shallow embedding of `src/models/room_member.rs` (the `RoomMember` entity of a
Matrix client SDK) together with proofs about its operations `new`,
`update_member` and `update_power`.

Modelling conventions:
* `js_int::Int` is modelled as `Int`; Rust's `/` on integers truncates toward
  zero, which is `Int.tdiv` in Lean.
* `HashMap<UserId, Int>` is modelled as an association list
  `List (UserId × Int)`: `get` is first-match lookup, `values()` is the list
  of second components (the maximum computed from them does not depend on
  iteration order).
* `Option::unwrap` is modelled by `Option.getD 0`; the panic case is the
  `none` branch, and a separate theorem shows the option is `some` at the
  call site, so the junk default is never consulted.
* The `&mut self` methods returning `bool` are modelled as pure functions
  `RoomMember → Input → Bool × RoomMember`.
-/

namespace RoomMemberModel

/-- Membership states of a room member (`MembershipState` from the events
crate). -/
inductive MembershipState
  | ban
  | invite
  | join
  | knock
  | leave
  deriving DecidableEq, Repr

/-- A Matrix user identifier, kept opaque as a string. -/
abbrev UserId := String

/-- The content of an `m.room.member` state event: the fields of
`MemberEventContent` that `room_member.rs` reads. -/
structure MemberEventContent where
  membership : MembershipState
  deriving DecidableEq, Repr

/-- An `m.room.member` state event (`MemberEvent`): the fields that
`room_member.rs` reads. -/
structure MemberEvent where
  content : MemberEventContent
  room_id : Option String
  sender : UserId
  state_key : String
  deriving DecidableEq, Repr

/-- The content of an `m.room.power_levels` event: the fields that
`room_member.rs` reads (`users_default` and the `users` override map). -/
structure PowerLevelsContent where
  users_default : Int
  users : List (UserId × Int)
  deriving DecidableEq, Repr

/-- An `m.room.power_levels` state event (`PowerLevelsEvent`). -/
structure PowerLevelsEvent where
  content : PowerLevelsContent
  deriving DecidableEq, Repr

/-- The event-collection type `Event`, restricted to the variants this entity
can ever store or be handed (`Event::RoomMember`, plus the power-levels
variant so that statements about the event log can mention it). -/
inductive Event
  | roomMember (e : MemberEvent)
  | powerLevels (e : PowerLevelsEvent)
  deriving DecidableEq, Repr

/-- Modelled from the spec: the user-profile value (`User`) lives in the
profile subsystem, outside the file under verification.  Per the spec this
core "holds a reference but does not mutate it itself beyond initial
construction", so the model records only the constructing event. -/
structure User where
  seed : MemberEvent
  deriving DecidableEq, Repr

/-- Modelled from the spec: `User::new(event)` as called by
`RoomMember::new`; it packages the construction event's profile data. -/
def User.new (event : MemberEvent) : User := ⟨event⟩

/-- The `RoomMember` struct of `room_member.rs`. -/
structure RoomMember where
  user_id : UserId
  room_id : Option String
  typing : Option Bool
  user : User
  power_level : Option Int
  power_level_norm : Option Int
  membership : MembershipState
  name : String
  events : List Event
  deriving DecidableEq, Repr

/-- `RoomMember::new(event)`. -/
def RoomMember.new (event : MemberEvent) : RoomMember :=
  { room_id := event.room_id
    user_id := event.sender
    typing := none
    user := User.new event
    power_level := none
    power_level_norm := none
    membership := event.content.membership
    name := event.state_key
    events := [Event.roomMember event] }

/-- `RoomMember::update_member(&mut self, event) -> bool`: the returned
boolean is `self.membership == event.content.membership`, computed before
the assignment, exactly as in the source. -/
def RoomMember.update_member (m : RoomMember) (event : MemberEvent) :
    Bool × RoomMember :=
  let changed := decide (m.membership = event.content.membership)
  (changed, { m with membership := event.content.membership })

/-- The `max_power` loop of `update_power`: start from `users_default` and
fold `max` over every value of the `users` map. -/
def maxPowerLoop (users : List (UserId × Int)) (init : Int) : Int :=
  users.foldl (fun acc p => max p.2 acc) init

/-- `max_power` as computed by `update_power` for a given configuration. -/
def PowerLevelsContent.maxPower (c : PowerLevelsContent) : Int :=
  maxPowerLoop c.users c.users_default

/-- `HashMap::get` on the `users` map: first-match association lookup. -/
def usersGet (users : List (UserId × Int)) (u : UserId) : Option Int :=
  match users with
  | [] => none
  | (k, v) :: rest => if k = u then some v else usersGet rest u

/-- The power resolved by `update_power` for identity `u`: the explicit
override when present, otherwise `users_default`. -/
def PowerLevelsContent.resolve (c : PowerLevelsContent) (u : UserId) : Int :=
  (usersGet c.users u).getD c.users_default

/-- Rust's `Option::unwrap` at the normalization site, with the panic case
mapped to a junk default (shown elsewhere to be unreachable). -/
def unwrapOr0 (o : Option Int) : Int := o.getD 0

/-- The `if let Some(user_power) = event.content.users.get(&self.user_id)`
block of `update_power`: computes the `changed` boolean (old-equals-new,
exactly as in the source) and assigns `power_level` unconditionally. -/
def RoomMember.update_power_assigned (m : RoomMember) (event : PowerLevelsEvent) :
    Bool × RoomMember :=
  match usersGet event.content.users m.user_id with
  | some user_power =>
      (decide (m.power_level = some user_power),
       { m with power_level := some user_power })
  | none =>
      (decide (m.power_level = some event.content.users_default),
       { m with power_level := some event.content.users_default })

/-- `RoomMember::update_power(&mut self, event) -> bool`: compute
`max_power`, run the assignment block, then, when `max_power > 0`, set
`power_level_norm := (power_level.unwrap() * 100) / max_power` with Rust's
truncating division. -/
def RoomMember.update_power (m : RoomMember) (event : PowerLevelsEvent) :
    Bool × RoomMember :=
  let max_power := event.content.maxPower
  let r := m.update_power_assigned event
  if 0 < max_power then
    let norm := Int.tdiv (unwrapOr0 r.2.power_level * 100) max_power
    (r.1, { r.2 with power_level_norm := some norm })
  else
    (r.1, r.2)

/-! Concrete fixtures used by counterexamples and witnesses. -/

/-- A join event sent by user `@a`. -/
def evJoinA : MemberEvent :=
  { content := ⟨.join⟩, room_id := some "!r", sender := "@a", state_key := "@a" }

/-- A leave event sent by user `@a`. -/
def evLeaveA : MemberEvent :=
  { content := ⟨.leave⟩, room_id := some "!r", sender := "@a", state_key := "@a" }

/-- A join event sent by user `@b`. -/
def evJoinB : MemberEvent :=
  { content := ⟨.join⟩, room_id := some "!r", sender := "@b", state_key := "@b" }

/-- Power levels: default 50 with an explicit override of 100 for `@a`. -/
def peAB : PowerLevelsEvent := ⟨{ users_default := 50, users := [("@a", 100)] }⟩

/-- Power levels: default -1 with an explicit override of 3 for `@a`, so the
maximum is positive while `@b` resolves to a negative power. -/
def peNeg : PowerLevelsEvent := ⟨{ users_default := -1, users := [("@a", 3)] }⟩

/-- Power levels: default 50, no overrides. -/
def peDef50 : PowerLevelsEvent := ⟨{ users_default := 50, users := [] }⟩

/-- A member for `@a` that already holds an absolute power of 50. -/
def memberA50 : RoomMember := { RoomMember.new evJoinA with power_level := some 50 }

/-! Normal forms of the two update operations, shared by the claim proofs. -/

/-- The assignment block of `update_power` in closed form: the boolean is the
old-equals-new comparison against the resolved power, and `power_level` is
set to the resolved power. -/
theorem update_power_assigned_spec (m : RoomMember) (e : PowerLevelsEvent) :
    m.update_power_assigned e =
      (decide (m.power_level = some (e.content.resolve m.user_id)),
       { m with power_level := some (e.content.resolve m.user_id) }) := by
  unfold RoomMember.update_power_assigned PowerLevelsContent.resolve
  cases h : usersGet e.content.users m.user_id <;> simp [h]

/-- `update_power` in closed form. -/
theorem update_power_spec (m : RoomMember) (e : PowerLevelsEvent) :
    m.update_power e =
      (decide (m.power_level = some (e.content.resolve m.user_id)),
       { m with
          power_level := some (e.content.resolve m.user_id)
          power_level_norm :=
            if 0 < e.content.maxPower then
              some (Int.tdiv (e.content.resolve m.user_id * 100) e.content.maxPower)
            else m.power_level_norm }) := by
  simp only [RoomMember.update_power, update_power_assigned_spec]
  split_ifs with h <;> simp [unwrapOr0, h]

/-! Claim theorems. -/

/-- C1: `update_member`'s returned boolean is the inverse of the claimed
"changed" signal.  At a concrete input where the declared membership differs
from the prior membership the code returns `false`, and at a no-op
re-application of the same membership it returns `true`. -/
theorem C1_update_member_signal_inverted_on_code :
    (RoomMember.new evJoinA).membership ≠ evLeaveA.content.membership ∧
    ((RoomMember.new evJoinA).update_member evLeaveA).1 = false ∧
    (RoomMember.new evJoinA).membership = evJoinA.content.membership ∧
    ((RoomMember.new evJoinA).update_member evJoinA).1 = true := by
  decide

/-- C2: `update_power`'s returned boolean is the inverse of the claimed
"changed" signal.  At a no-op re-application (prior power 50, configuration
resolving to 50) the code returns `true`; at a first application (prior
power absent, so the resolved power differs from it) the code returns
`false`. -/
theorem C2_update_power_signal_inverted_on_code :
    memberA50.power_level = some (peDef50.content.resolve memberA50.user_id) ∧
    (memberA50.update_power peDef50).1 = true ∧
    (RoomMember.new evJoinA).power_level ≠
      some (peDef50.content.resolve (RoomMember.new evJoinA).user_id) ∧
    ((RoomMember.new evJoinA).update_power peDef50).1 = false := by
  decide

/-- C3: after `update_power`, when `max_power` is strictly positive
`power_level_norm` is the truncating (round-toward-zero) division
`(resolved * 100) / max_power`, and when `max_power` is not strictly
positive `power_level_norm` keeps the value it held before the call. -/
theorem C3_power_norm_recompute_or_stale (m : RoomMember) (e : PowerLevelsEvent) :
    (m.update_power e).2.power_level_norm =
      if 0 < e.content.maxPower then
        some (Int.tdiv (e.content.resolve m.user_id * 100) e.content.maxPower)
      else m.power_level_norm := by
  rw [update_power_spec]

/-- C4: `update_power` assigns `power_level` unconditionally to the explicit
override when present and to the default otherwise (the resolver), and in
the concrete scenario with default 50 and override {@a ↦ 100} the entity
for `@a` gets absolute 100 / normalized 100 while the entity for `@b` gets
absolute 50 / normalized 50. -/
theorem C4_power_resolution (m : RoomMember) (e : PowerLevelsEvent) :
    (m.update_power e).2.power_level = some (e.content.resolve m.user_id) ∧
    ((RoomMember.new evJoinA).update_power peAB).2.power_level = some 100 ∧
    ((RoomMember.new evJoinA).update_power peAB).2.power_level_norm = some 100 ∧
    ((RoomMember.new evJoinB).update_power peAB).2.power_level = some 50 ∧
    ((RoomMember.new evJoinB).update_power peAB).2.power_level_norm = some 50 := by
  refine ⟨?_, by decide, by decide, by decide, by decide⟩
  rw [update_power_spec]

/-- C5 counterexample: an `update_member` call that does mutate the
membership leaves the event log untouched — the mutating event is not
recorded, refuting "applied_events contains every event that has mutated
the entity". -/
theorem C5_counterexample :
    ((RoomMember.new evJoinA).update_member evLeaveA).2.membership ≠
      (RoomMember.new evJoinA).membership ∧
    Event.roomMember evLeaveA ∉
      ((RoomMember.new evJoinA).update_member evLeaveA).2.events ∧
    ((RoomMember.new evJoinA).update_member evLeaveA).2.events.length = 1 := by
  decide

/-- C5 amended: `events` holds exactly the constructing event — `new` stores
that one event and neither `update_member` nor `update_power` ever appends
to (or otherwise changes) the log, so it always contains at least one entry
(in fact exactly one). -/
theorem C5_amended_log_only_constructing_event :
    (∀ e, (RoomMember.new e).events = [Event.roomMember e]) ∧
    (∀ (m : RoomMember) (ev : MemberEvent),
      ((m.update_member ev).2).events = m.events) ∧
    (∀ (m : RoomMember) (pe : PowerLevelsEvent),
      ((m.update_power pe).2).events = m.events) ∧
    (∀ e, (RoomMember.new e).events.length = 1) := by
  refine ⟨fun e => rfl, fun m ev => rfl, fun m pe => ?_, fun e => rfl⟩
  rw [update_power_spec]

/-- C6: construction sets `membership` to the event's declared value,
leaves both power fields and `typing` absent, seeds `name` from the state
key, and stores exactly the constructing event in the log. -/
theorem C6_construct_fields (e : MemberEvent) :
    (RoomMember.new e).membership = e.content.membership ∧
    (RoomMember.new e).power_level = none ∧
    (RoomMember.new e).power_level_norm = none ∧
    (RoomMember.new e).typing = none ∧
    (RoomMember.new e).name = e.state_key ∧
    (RoomMember.new e).events = [Event.roomMember e] ∧
    (RoomMember.new e).events.length = 1 :=
  ⟨rfl, rfl, rfl, rfl, rfl, rfl, rfl⟩

/-- C7 counterexample: with default -1 and override {@a ↦ 3}, the entity
for `@b` resolves to -1 with `max_power = 3 > 0`; the code stores
`-33` (truncating division), while the floor is `-34`, and the stored value
is negative even though the resolved power is at most `max_power`. -/
theorem C7_counterexample :
    0 < peNeg.content.maxPower ∧
    peNeg.content.resolve (RoomMember.new evJoinB).user_id ≤ peNeg.content.maxPower ∧
    ((RoomMember.new evJoinB).update_power peNeg).2.power_level_norm = some (-33) ∧
    Int.fdiv (peNeg.content.resolve (RoomMember.new evJoinB).user_id * 100)
      peNeg.content.maxPower = -34 ∧
    ¬ (0 : Int) ≤ -33 := by
  decide

/-- C7 amended: when `max_power` is strictly positive, after `update_power`
the normalized power equals the round-toward-zero division
`(p * 100) / max_power` of the resolved power `p`, and it lies in `[0, 100]`
whenever `0 ≤ p ≤ max_power`. -/
theorem C7_amended_norm_trunc_and_bounds (m : RoomMember) (e : PowerLevelsEvent)
    (h : 0 < e.content.maxPower) :
    (m.update_power e).2.power_level_norm =
      some (Int.tdiv (e.content.resolve m.user_id * 100) e.content.maxPower) ∧
    (0 ≤ e.content.resolve m.user_id →
      e.content.resolve m.user_id ≤ e.content.maxPower →
      0 ≤ Int.tdiv (e.content.resolve m.user_id * 100) e.content.maxPower ∧
      Int.tdiv (e.content.resolve m.user_id * 100) e.content.maxPower ≤ 100) := by
  constructor
  · rw [update_power_spec]
    simp [h]
  · intro hp hle
    have h100 : (0 : Int) ≤ e.content.resolve m.user_id * 100 :=
      mul_nonneg hp (by norm_num)
    constructor
    · exact Int.tdiv_nonneg h100 h.le
    · rw [Int.tdiv_eq_ediv h100 h.le]
      calc e.content.resolve m.user_id * 100 / e.content.maxPower
          ≤ e.content.maxPower * 100 / e.content.maxPower :=
            Int.ediv_le_ediv h (mul_le_mul_of_nonneg_right hle (by norm_num))
        _ = 100 := Int.mul_ediv_cancel_left 100 h.ne'

/-- C7 amended witness: the amended theorem applied to the entity for `@b`
and the configuration with default 50 and override {@a ↦ 100}. -/
theorem C7_amended_norm_trunc_and_bounds_witness :
    ((RoomMember.new evJoinB).update_power peAB).2.power_level_norm =
      some (Int.tdiv
        (peAB.content.resolve (RoomMember.new evJoinB).user_id * 100)
        peAB.content.maxPower) ∧
    (0 ≤ Int.tdiv (peAB.content.resolve (RoomMember.new evJoinB).user_id * 100)
        peAB.content.maxPower ∧
     Int.tdiv (peAB.content.resolve (RoomMember.new evJoinB).user_id * 100)
        peAB.content.maxPower ≤ 100) :=
  ⟨(C7_amended_norm_trunc_and_bounds (RoomMember.new evJoinB) peAB (by decide)).1,
   (C7_amended_norm_trunc_and_bounds (RoomMember.new evJoinB) peAB (by decide)).2
     (by decide) (by decide)⟩

/-- C8: both update operations are idempotent in their side effects —
reapplying the same membership event or the same power-levels configuration
leaves the entity in the same state as applying it once. -/
theorem C8_idempotent_side_effects (m : RoomMember) (e : MemberEvent)
    (pe : PowerLevelsEvent) :
    ((m.update_member e).2.update_member e).2 = (m.update_member e).2 ∧
    ((m.update_power pe).2.update_power pe).2 = (m.update_power pe).2 := by
  constructor
  · rfl
  · rw [update_power_spec ((m.update_power pe).2) pe, update_power_spec m pe]
    split_ifs <;> rfl

/-- C9: the frame conditions — `user_id` and `room_id` are preserved by both
update operations; `typing` is `none` at construction and untouched by both
update operations; `update_member` leaves both power fields unchanged. -/
theorem C9_frame_conditions (m : RoomMember) (e : MemberEvent)
    (pe : PowerLevelsEvent) (e0 : MemberEvent) :
    (m.update_member e).2.user_id = m.user_id ∧
    (m.update_member e).2.room_id = m.room_id ∧
    (m.update_power pe).2.user_id = m.user_id ∧
    (m.update_power pe).2.room_id = m.room_id ∧
    (RoomMember.new e0).typing = none ∧
    (m.update_member e).2.typing = m.typing ∧
    (m.update_power pe).2.typing = m.typing ∧
    (m.update_member e).2.power_level = m.power_level ∧
    (m.update_member e).2.power_level_norm = m.power_level_norm := by
  refine ⟨rfl, rfl, ?_, ?_, rfl, rfl, ?_, rfl, rfl⟩ <;> rw [update_power_spec]

/-- C10: the `unwrap` in the normalization step cannot panic — at that point
`power_level` has just been assigned `some` of the resolved power by the
assignment block — and after any `update_power` call `power_level` is
present. -/
theorem C10_unwrap_never_panics (m : RoomMember) (e : PowerLevelsEvent) :
    (m.update_power_assigned e).2.power_level =
      some (e.content.resolve m.user_id) ∧
    ((m.update_power e).2).power_level.isSome = true := by
  refine ⟨?_, ?_⟩
  · rw [update_power_assigned_spec]
  · rw [update_power_spec]
    rfl

end RoomMemberModel
